import Mathlib

/-!
Shallow embedding of the ActivityPub federation pipeline of the jclem.me
web service (Go sources under internal/activitypub and internal/www).

The embedding models decoded JSON values, the JSON-LD Context type, the
activity store service (CreateActivity and its transaction), the inbox
worker (follow/undo/accept), the outbox delivery worker, the HTTP signing
helper and the two public-router handlers.  Database and network calls are
modelled by explicit environments that choose each call's outcome, so that
the control flow of the Go code can be replayed on any combination of
failures.
-/

namespace AP

/-- A JSON value as Go's encoding/json decodes it into an `any`
(string, float64, bool, nil, `[]any`, `map[string]any`).  Object fields keep
their textual order; numbers are modelled as integers (no claim depends on
float behaviour). -/
inductive Json where
  | null
  | bool (b : Bool)
  | num (n : Int)
  | str (s : String)
  | arr (xs : List Json)
  | obj (fields : List (String × Json))
deriving Repr

/-- Go's `==` on two `any` values holding decoded JSON.  Per the Go
specification, two interface values with different dynamic types compare
unequal, while comparing two values of the same uncomparable dynamic type
(`[]any`, `map[string]any`) panics at run time; `none` models that panic. -/
def goEq : Json → Json → Option Bool
  | .null, .null => some true
  | .bool a, .bool b => some (a == b)
  | .num a, .num b => some (a == b)
  | .str a, .str b => some (a == b)
  | .arr _, .arr _ => none
  | .obj _, .obj _ => none
  | _, _ => some false

/-- Go's slices.Contains over a `[]any` (via slices.Index): scan left to
right and propagate the comparison panic of goEq. -/
def goContains : List Json → Json → Option Bool
  | [], _ => some false
  | x :: xs, v =>
    match goEq x v with
    | none => none
    | some true => some true
    | some false => goContains xs v

/-- ActivityStreamsContext constant (internal/activitypub/types.go). -/
def ActivityStreamsContext : String := "https://www.w3.org/ns/activitystreams"

/-- SecurityContext constant (internal/activitypub/types.go). -/
def SecurityContext : String := "https://w3id.org/security/v1"

/-- MastodonContext map (internal/activitypub/types.go), as the decoded JSON
object Go would marshal it to (keys in Go's sorted marshal order). -/
def MastodonContext : Json :=
  .obj [("Hashtag", .str "as:Hashtag"),
        ("sensitive", .str "as:sensitive"),
        ("toot", .str "http://joinmastodon.org/ns#")]

/-- ContentType constant: the ActivityPub media type. -/
def ContentType : String := "application/activity+json; charset=utf-8"

/-- Domain constant: the federation host. -/
def Domain : String := "pub.jclem.me"

/-- A JSON-LD context (type Context in internal/activitypub/types.go): a raw
list of decoded JSON values. -/
structure Context where
  rawValues : List Json
deriving Repr

/-- Context.UnmarshalJSON: first try to decode the data as a `[]any`, which
succeeds exactly for a JSON array (and for null, which Go decodes into a nil
slice without error); otherwise decode as a single `any` value and store it
as a one-element list. -/
def Context.unmarshalJSON : Json → Context
  | .arr xs => ⟨xs⟩
  | .null => ⟨[]⟩
  | j => ⟨[j]⟩

/-- Context.MarshalJSON: marshal the raw value list as a JSON array. -/
def Context.marshalJSON (c : Context) : Json := .arr c.rawValues

/-- Context.Contains: slices.Contains over the raw values. -/
def Context.contains (c : Context) (v : Json) : Option Bool :=
  goContains c.rawValues v

/-- The elements of an original `AtContext` value: the members of an array,
or the value itself when it is a single value. -/
def contextElements : Json → List Json
  | .arr xs => xs
  | j => [j]

/-- True when a JSON value is a string or an object. -/
def isStrOrObj : Json → Bool
  | .str _ => true
  | .obj _ => true
  | _ => false

/-- The context shapes named by the spec: a single string or object, or an
array of mixed strings and objects. -/
def isContextShape : Json → Bool
  | .arr xs => xs.all isStrOrObj
  | j => isStrOrObj j

theorem goContains_str_of_mem (xs : List Json) (s : String)
    (h : Json.str s ∈ xs) : goContains xs (.str s) = some true := by
  induction xs with
  | nil => cases h
  | cons x xs ih =>
    rcases List.mem_cons.mp h with h1 | h2
    · subst h1
      simp [goContains, goEq]
    · cases x with
      | null => simpa [goContains, goEq] using ih h2
      | bool b => simpa [goContains, goEq] using ih h2
      | num n => simpa [goContains, goEq] using ih h2
      | str t =>
        by_cases ht : t = s
        · subst ht; simp [goContains, goEq]
        · have hb : (t == s) = false := beq_eq_false_iff_ne.mpr ht
          simpa [goContains, goEq, hb] using ih h2
      | arr ys => simpa [goContains, goEq] using ih h2
      | obj fs => simpa [goContains, goEq] using ih h2

theorem context_roundtrip (c : Context) :
    Context.unmarshalJSON (Context.marshalJSON c) = c := by
  cases c; rfl

theorem str_mem_rawValues_of_elem (j : Json) (s : String)
    (h : Json.str s ∈ contextElements j) :
    Json.str s ∈ (Context.unmarshalJSON j).rawValues := by
  cases j <;> simp_all [contextElements, Context.unmarshalJSON]

/-- Error values, modelling Go error chains: primitive causes plus
fmt.Errorf wrapping with a message. -/
inductive GoErr where
  | dbBegin
  | dbInsertActivity
  | dbInsertNote
  | dbInsertFollower
  | dbDeleteFollower
  | dbListFollowers
  | dbInsertJob
  | dbCommit
  | dbQuery
  | activityNotFound
  | userNotFound
  | signingKeyNotFound
  | unmarshalTypeError
  | networkError
  | httpStatus (status : Nat)
  | invalidActivityType (t : String)
  | invalidObjectType (t : String)
  | pemDecodeError
  | pemParseError
  | notRSAKey
  | actorHasNoInbox (id : String)
  | actorMismatch (a b : String)
  | notAFollow (t : String)
  | signingError
  | msg (s : String)
  | wrap (msg : String) (e : GoErr)
deriving Repr, DecidableEq

/-- Go's errors.Is against a sentinel error: unwrap the chain built with
fmt.Errorf("...: %w", err) and compare with the target. -/
def goErrIs : GoErr → GoErr → Bool
  | .wrap _ e, t => goErrIs e t
  | e, t => e == t

/-- The root cause of a wrapped error chain. -/
def GoErr.root : GoErr → GoErr
  | .wrap _ e => GoErr.root e
  | e => e

/-- Decode one JSON value into a Go string field: null is a no-op
(the field keeps its previous value), a string assigns, anything else is an
UnmarshalTypeError. -/
def decStr : Json → Except GoErr (Option String)
  | .null => .ok none
  | .str s => .ok (some s)
  | _ => .error .unmarshalTypeError

/-- Decode one JSON value into a Go bool field. -/
def decBool : Json → Except GoErr (Option Bool)
  | .null => .ok none
  | .bool b => .ok (some b)
  | _ => .error .unmarshalTypeError

/-- Decode a JSON array element into a string (a fresh zero string, so null
leaves it ""). -/
def decStrElem : Json → Except GoErr String
  | .null => .ok ""
  | .str s => .ok s
  | _ => .error .unmarshalTypeError

/-- Decode the elements of a JSON array into strings, in order. -/
def decStrElems : List Json → Except GoErr (List String)
  | [] => .ok []
  | x :: xs => do
      let y ← decStrElem x
      let ys ← decStrElems xs
      .ok (y :: ys)

/-- Decode one JSON value into a Go []string field: null sets the slice to
nil, an array decodes elementwise, anything else is an UnmarshalTypeError. -/
def decStrList : Json → Except GoErr (Option (List String))
  | .null => .ok (some [])
  | .arr xs => do
      let ys ← decStrElems xs
      .ok (some ys)
  | _ => .error .unmarshalTypeError

/-- Decode one JSON value into a Go `any` field: always assigns the decoded
value (null assigns nil). -/
def decAny : Json → Except GoErr (Option Json) :=
  fun j => .ok (some j)

/-- Decode one JSON value into a Context field: the custom UnmarshalJSON is
called for every input, including null, and never fails on decoded JSON. -/
def decContext (j : Json) : Except GoErr (Option Context) :=
  .ok (some (Context.unmarshalJSON j))

/-- Process the occurrences of one struct field over the JSON object's
key/value list in textual order, as Go's decoder assigns them: a later
occurrence overwrites an earlier one and a type error aborts. -/
def decodeFieldAux (dec : Json → Except GoErr (Option α)) (name : String)
    (acc : Option α) : List (String × Json) → Except GoErr (Option α)
  | [] => .ok acc
  | (k, v) :: rest =>
    if k = name then
      match dec v with
      | .error e => .error e
      | .ok none => decodeFieldAux dec name acc rest
      | .ok (some t) => decodeFieldAux dec name (some t) rest
    else decodeFieldAux dec name acc rest

/-- The decoded value of a struct field, or none when no occurrence assigned
one (the field keeps its zero value). -/
def decodeField (dec : Json → Except GoErr (Option α))
    (fields : List (String × Json)) (name : String) : Except GoErr (Option α) :=
  decodeFieldAux dec name none fields

/-- An ActivityStreams Note (type Note in internal/activitypub/types.go). -/
structure Note where
  context : Context
  type : String
  id : String
  attributedTo : String
  content : String
  published : String
  sensitive : Bool
  toAddrs : List String
  ccAddrs : List String
deriving Repr

/-- The Go zero value of Note. -/
def zeroNote : Note :=
  { context := ⟨[]⟩, type := "", id := "", attributedTo := "", content := "",
    published := "", sensitive := false, toAddrs := [], ccAddrs := [] }

/-- json.Unmarshal into a Note struct: null is a no-op, an object decodes
fieldwise by json tag, anything else is an UnmarshalTypeError. -/
def unmarshalNote : Json → Except GoErr Note
  | .null => .ok zeroNote
  | .obj fields => do
      let cx ← decodeField decContext fields "@context"
      let ty ← decodeField decStr fields "type"
      let i ← decodeField decStr fields "id"
      let att ← decodeField decStr fields "attributedTo"
      let co ← decodeField decStr fields "content"
      let pu ← decodeField decStr fields "published"
      let se ← decodeField decBool fields "sensitive"
      let toList ← decodeField decStrList fields "to"
      let ccList ← decodeField decStrList fields "cc"
      .ok { context := cx.getD ⟨[]⟩, type := ty.getD "", id := i.getD "",
            attributedTo := att.getD "", content := co.getD "",
            published := pu.getD "", sensitive := se.getD false,
            toAddrs := toList.getD [], ccAddrs := ccList.getD [] }
  | _ => .error .unmarshalTypeError

/-- An ActivityStreams Activity envelope (type Activity[T] in
internal/activitypub/types.go), generic in the object payload. -/
structure Activity (T : Type) where
  context : Context
  type : String
  id : String
  actor : String
  object : T
  published : String
  toAddrs : List String
  ccAddrs : List String
deriving Repr

/-- json.Unmarshal into an Activity[T] struct, parameterised by the decoder
and zero value of the object field. -/
def unmarshalActivity (decObj : Json → Except GoErr (Option T)) (zero : T) :
    Json → Except GoErr (Activity T)
  | .null =>
      .ok { context := ⟨[]⟩, type := "", id := "", actor := "", object := zero,
            published := "", toAddrs := [], ccAddrs := [] }
  | .obj fields => do
      let cx ← decodeField decContext fields "@context"
      let ty ← decodeField decStr fields "type"
      let i ← decodeField decStr fields "id"
      let ac ← decodeField decStr fields "actor"
      let ob ← decodeField decObj fields "object"
      let pu ← decodeField decStr fields "published"
      let toList ← decodeField decStrList fields "to"
      let ccList ← decodeField decStrList fields "cc"
      .ok { context := cx.getD ⟨[]⟩, type := ty.getD "", id := i.getD "",
            actor := ac.getD "", object := ob.getD zero,
            published := pu.getD "", toAddrs := toList.getD [], ccAddrs := ccList.getD [] }
  | _ => .error .unmarshalTypeError

/-- json.Unmarshal into Activity[any]: the object field takes the decoded
JSON value itself. -/
def unmarshalActivityAny : Json → Except GoErr (Activity Json) :=
  unmarshalActivity decAny .null

/-- Decode one JSON value into a Note-typed object field. -/
def decNote : Json → Except GoErr (Option Note)
  | .null => .ok none
  | j => do
      let n ← unmarshalNote j
      .ok (some n)

/-- json.Unmarshal into Activity[Note]. -/
def unmarshalActivityNote : Json → Except GoErr (Activity Note) :=
  unmarshalActivity decNote zeroNote

/-- The activityInput envelope of internal/www/pubrouter.go
(@context as a plain Go string, type, id). -/
structure ActivityInput where
  context : String
  type : String
  id : String
deriving Repr, DecidableEq

/-- json.Unmarshal into activityInput. -/
def unmarshalActivityInput : Json → Except GoErr ActivityInput
  | .null => .ok ⟨"", "", ""⟩
  | .obj fields => do
      let cx ← decodeField decStr fields "@context"
      let ty ← decodeField decStr fields "type"
      let i ← decodeField decStr fields "id"
      .ok ⟨cx.getD "", ty.getD "", i.getD ""⟩
  | _ => .error .unmarshalTypeError

/-- json.Marshal of a []string. -/
def marshalStrList (xs : List String) : Json := .arr (xs.map .str)

/-- json.Marshal of a Note (all fields lack omitempty, so all are emitted in
struct order). -/
def marshalNote (n : Note) : Json :=
  .obj [("@context", n.context.marshalJSON),
        ("type", .str n.type),
        ("id", .str n.id),
        ("attributedTo", .str n.attributedTo),
        ("content", .str n.content),
        ("published", .str n.published),
        ("sensitive", .bool n.sensitive),
        ("to", marshalStrList n.toAddrs),
        ("cc", marshalStrList n.ccAddrs)]

/-- json.Marshal of an Activity[Note]: actor, published, to and cc carry
omitempty, the struct-valued object field is always emitted. -/
def marshalActivityNote (a : Activity Note) : Json :=
  .obj ([("@context", a.context.marshalJSON),
         ("type", .str a.type),
         ("id", .str a.id)] ++
        (if a.actor = "" then [] else [("actor", .str a.actor)]) ++
        [("object", marshalNote a.object)] ++
        (if a.published = "" then [] else [("published", .str a.published)]) ++
        (if a.toAddrs = [] then [] else [("to", marshalStrList a.toAddrs)]) ++
        (if a.ccAddrs = [] then [] else [("cc", marshalStrList a.ccAddrs)]))

/-- Inbox mailbox constant (service.go). -/
def Inbox : String := "inbox"

/-- Outbox mailbox constant (service.go). -/
def Outbox : String := "outbox"

/-- An activities-table row (ActivityRecord in service.go).  The
database-generated record ID and the timestamps are elided; no claim
concerns them. -/
structure ActivityRecord where
  userID : Int
  mailbox : String
  context : String
  type : String
  id : String
  data : Json
deriving Repr

/-- A notes-table row (NoteRecord in service.go), as written by insertNote. -/
structure NoteRecord where
  userID : Int
  activityID : String
  objectID : String
  content : String
  published : String
  toAddrs : List String
  ccAddrs : List String
deriving Repr, DecidableEq

/-- A followers-table row (FollowerRecord in service.go). -/
structure FollowerRecord where
  userID : Int
  actorID : String
  activityID : String
deriving Repr, DecidableEq

/-- A queued river job, with the arguments the service inserts. -/
inductive Job where
  | handleFollow (userRecordID : Int) (activityID : String)
  | handleOutbox (userRecordID : Int) (activityID : String) (followerID : String)
deriving Repr, DecidableEq

/-- The database-of-record state. -/
structure DB where
  activities : List ActivityRecord
  notes : List NoteRecord
  followers : List FollowerRecord
  jobs : List Job
deriving Repr

/-- Outcomes of the database and queue calls made during one CreateActivity
call: each flag injects a failure into the corresponding call. -/
structure TxEnv where
  beginTxFails : Bool
  insertActivityFails : Bool
  insertNoteFails : Bool
  listFollowersFails : Bool
  insertJobFailsAt : Option Nat
  commitFails : Bool
  rollbackFails : Bool
deriving Repr

/-- The rows and jobs one CreateActivity transaction has written but not yet
committed. -/
structure TxWrites where
  activity : ActivityRecord
  note : Option NoteRecord
  jobs : List Job
deriving Repr

/-- Commit: apply the transaction's pending writes to the database. -/
def applyWrites (db : DB) (w : TxWrites) : DB :=
  { activities := db.activities ++ [w.activity]
    notes := db.notes ++ w.note.toList
    followers := db.followers
    jobs := db.jobs ++ w.jobs }

/-- Service.insertActivityRecord: insert the activity row inside the
transaction and return it. -/
def insertActivityRecord (fails : Bool) (userRecordID : Int)
    (mailbox context typ id : String) (data : Json) : Except GoErr ActivityRecord :=
  if fails then .error (.wrap "failed to insert activity" .dbInsertActivity)
  else .ok { userID := userRecordID, mailbox, context, type := typ, id, data }

/-- Service.handleInbox (service.go lines 70-81): a non-Follow activity is
logged and ignored; a Follow activity enqueues one HandleFollowArgs job in
the same transaction. -/
def handleInbox (jobFailsAt : Option Nat) (userRecordID : Int)
    (ar : ActivityRecord) : Except GoErr (List Job) :=
  if ar.type ≠ "Follow" then .ok []
  else if jobFailsAt = some 0 then
    .error (.wrap "failed to insert follow job" .dbInsertJob)
  else .ok [.handleFollow userRecordID ar.id]

/-- Service.ListFollowers for one user (runs on the pool, outside the
transaction). -/
def listFollowersQuery (db : DB) (userRecordID : Int) : List FollowerRecord :=
  db.followers.filter (fun f => f.userID == userRecordID)

/-- The per-follower HandleOutboxArgs insert loop of Service.handleOutbox,
with the index of the failing insert (if any) injected. -/
def insertOutboxJobs (jobFailsAt : Option Nat) (userRecordID : Int)
    (activityID : String) : Nat → List String → Except GoErr (List Job)
  | _, [] => .ok []
  | i, f :: fs =>
    if jobFailsAt = some i then
      .error (.wrap "failed to insert outbox job" .dbInsertJob)
    else
      match insertOutboxJobs jobFailsAt userRecordID activityID (i + 1) fs with
      | .error e => .error e
      | .ok rest => .ok (.handleOutbox userRecordID activityID f :: rest)

/-- Service.handleOutbox (service.go lines 83-114): require type Create,
unmarshal the body as Activity[Note], require object type Note, insert the
note row in the transaction, list the current followers and enqueue one
HandleOutboxArgs job per follower in the transaction. -/
def handleOutbox (insertNoteFails listFollowersFails : Bool)
    (jobFailsAt : Option Nat) (db : DB) (userRecordID : Int)
    (ar : ActivityRecord) : Except GoErr (Option NoteRecord × List Job) :=
  if ar.type ≠ "Create" then .error (.invalidActivityType ar.type)
  else
    match unmarshalActivityNote ar.data with
    | .error e => .error (.wrap "failed to unmarshal activity data" e)
    | .ok ao =>
      if ao.object.type ≠ "Note" then .error (.invalidObjectType ao.object.type)
      else if insertNoteFails then
        .error (.wrap "failed to create note" (.wrap "failed to insert note" .dbInsertNote))
      else
        let n : NoteRecord :=
          { userID := userRecordID, activityID := ao.id, objectID := ao.object.id,
            content := ao.object.content, published := ao.object.published,
            toAddrs := ao.object.toAddrs, ccAddrs := ao.object.ccAddrs }
        if listFollowersFails then
          .error (.wrap "failed to list followers" .dbListFollowers)
        else
          match insertOutboxJobs jobFailsAt userRecordID ao.id 0
              ((listFollowersQuery db userRecordID).map (·.actorID)) with
          | .error e => .error e
          | .ok jobs => .ok (some n, jobs)

/-- The body of Service.CreateActivity between BeginTx and the deferred
endTransaction: insert the record, then branch on the mailbox. -/
def createActivityTx (insertActivityFails insertNoteFails listFollowersFails : Bool)
    (jobFailsAt : Option Nat) (db : DB) (userRecordID : Int)
    (mailbox context typ id : String) (data : Json) :
    Except GoErr (ActivityRecord × TxWrites) :=
  match insertActivityRecord insertActivityFails userRecordID mailbox context typ id data with
  | .error e => .error (.wrap "failed to create activity record" e)
  | .ok ar =>
    if mailbox = Inbox then
      match handleInbox jobFailsAt userRecordID ar with
      | .error e => .error (.wrap "failed to handle inbox" e)
      | .ok jobs => .ok (ar, { activity := ar, note := none, jobs })
    else
      match handleOutbox insertNoteFails listFollowersFails jobFailsAt db userRecordID ar with
      | .error e => .error (.wrap "failed to handle outbox" e)
      | .ok (n, jobs) => .ok (ar, { activity := ar, note := n, jobs })

/-- endTransaction (service.go lines 520-537): on an error, roll back (a
rollback failure is only logged, so the observable outcome is the same on
both branches and the original error is untouched); otherwise commit, and a
commit failure is returned. -/
def endTransaction (env : TxEnv) (dbAtBegin committed : DB) (err : Option GoErr) :
    Option GoErr × DB :=
  match err with
  | some _ => if env.rollbackFails then (none, dbAtBegin) else (none, dbAtBegin)
  | none =>
    if env.commitFails then
      (some (.wrap "failed to commit transaction" .dbCommit), dbAtBegin)
    else (none, committed)

/-- Service.CreateActivity (service.go lines 40-68): begin a transaction,
run the insert-and-handle body, and end the transaction via the deferred
endTransaction, whose non-nil result replaces the returned error. -/
def createActivity (env : TxEnv) (db : DB) (userRecordID : Int)
    (mailbox context typ id : String) (data : Json) :
    Except GoErr ActivityRecord × DB :=
  if env.beginTxFails then (.error (.wrap "failed to begin transaction" .dbBegin), db)
  else
    match createActivityTx env.insertActivityFails env.insertNoteFails
        env.listFollowersFails env.insertJobFailsAt db userRecordID
        mailbox context typ id data with
    | .error e =>
      match endTransaction env db db (some e) with
      | (some terr, db2) => (.error terr, db2)
      | (none, db2) => (.error e, db2)
    | .ok (ar, w) =>
      match endTransaction env db (applyWrites db w) none with
      | (some terr, db2) => (.error terr, db2)
      | (none, db2) => (.ok ar, db2)

/-- C1: for every CreateActivity call, if any step after beginning the
transaction fails (activity insert, inbox or outbox handling, note insert,
follower listing, or job enqueue), the database is unchanged (no activity
row, note row or queued job persisted) and the caller receives the failing
step's own error — a rollback failure never masks it — while on success the
transaction's activity row, note row and jobs are committed together. -/
theorem createActivity_transaction_atomicity_c1
    (env : TxEnv) (db : DB) (u : Int) (mb cx ty aid : String) (data : Json) :
    (∀ e, (createActivity env db u mb cx ty aid data).1 = .error e →
        (createActivity env db u mb cx ty aid data).2 = db) ∧
    (∀ ar, (createActivity env db u mb cx ty aid data).1 = .ok ar →
        ∃ w : TxWrites,
          createActivityTx env.insertActivityFails env.insertNoteFails
              env.listFollowersFails env.insertJobFailsAt db u mb cx ty aid data
            = .ok (ar, w) ∧
          (createActivity env db u mb cx ty aid data).2 = applyWrites db w) ∧
    (∀ e, (createActivity env db u mb cx ty aid data).1 = .error e →
        (env.beginTxFails = true ∧ e = .wrap "failed to begin transaction" .dbBegin) ∨
        (createActivityTx env.insertActivityFails env.insertNoteFails
              env.listFollowersFails env.insertJobFailsAt db u mb cx ty aid data
            = .error e) ∨
        (env.commitFails = true ∧ e = .wrap "failed to commit transaction" .dbCommit)) ∧
    (∀ b, createActivity { env with rollbackFails := b } db u mb cx ty aid data =
        createActivity env db u mb cx ty aid data) := by
  by_cases hb : env.beginTxFails = true
  · refine ⟨fun e _ => by simp [createActivity, hb],
      fun ar h => by simp [createActivity, hb] at h,
      fun e he => ?_, fun b => by simp [createActivity, hb]⟩
    simp [createActivity, hb] at he
    exact Or.inl ⟨hb, he.symm⟩
  · rcases hr : createActivityTx env.insertActivityFails env.insertNoteFails
        env.listFollowersFails env.insertJobFailsAt db u mb cx ty aid data with e0 | ⟨ar0, w0⟩
    · refine ⟨fun e _ => ?_, fun ar h => ?_, fun e he => ?_, fun b => ?_⟩
      · simp [createActivity, hb, hr, endTransaction]
      · simp [createActivity, hb, hr, endTransaction] at h
      · simp [createActivity, hb, hr, endTransaction] at he
        subst he
        exact Or.inr (Or.inl rfl)
      · simp [createActivity, hb, hr, endTransaction]
    · by_cases hc : env.commitFails = true
      · refine ⟨fun e _ => ?_, fun ar h => ?_, fun e he => ?_, fun b => ?_⟩
        · simp [createActivity, hb, hr, endTransaction, hc]
        · simp [createActivity, hb, hr, endTransaction, hc] at h
        · simp [createActivity, hb, hr, endTransaction, hc] at he
          exact Or.inr (Or.inr ⟨hc, he.symm⟩)
        · simp [createActivity, hb, hr, endTransaction, hc]
      · refine ⟨fun e he => ?_, fun ar h => ?_, fun e he => ?_, fun b => ?_⟩
        · simp [createActivity, hb, hr, endTransaction, hc] at he
        · simp [createActivity, hb, hr, endTransaction, hc] at h
          subst h
          exact ⟨w0, rfl, by simp [createActivity, hb, hr, endTransaction, hc]⟩
        · simp [createActivity, hb, hr, endTransaction, hc] at he
        · simp [createActivity, hb, hr, endTransaction, hc]

/-- Activity type constants (types.go). -/
def followActivityType : String := "Follow"

/-- Undo activity type constant (types.go). -/
def undoActivityType : String := "Undo"

/-- Create activity type constant (types.go). -/
def createActivityType : String := "Create"

/-- A remote actor document, as far as the workers read it after GetActor. -/
structure ActorDoc where
  id : String
  inbox : String
deriving Repr, DecidableEq

/-- A local user as the identity service returns it. -/
structure User where
  id : Int
  username : String
deriving Repr, DecidableEq

/-- ActorID (types.go): https://Domain/~username. -/
def ActorID (username : String) : String := "https://" ++ Domain ++ "/~" ++ username

/-- ActorFollowers (types.go): the followers collection URL. -/
def ActorFollowers (username : String) : String := ActorID username ++ "/followers"

/-- ActorPublicKeyID (types.go lines 278-281): the actor ID with the
main-key fragment. -/
def ActorPublicKeyID (username : String) : String := ActorID username ++ "#main-key"

/-- The outcome of one river job run: a river.JobCancel error cancels the
job permanently, a plain error is retried by the scheduler, nil is terminal
success. -/
inductive WorkResult where
  | ok
  | cancel (e : GoErr)
  | retry (e : GoErr)
deriving Repr, DecidableEq

/-- True for a cancel-class (permanent, never retried) outcome. -/
def WorkResult.isCancel : WorkResult → Bool
  | .cancel _ => true
  | _ => false

/-- True for a retryable (plain error) outcome. -/
def WorkResult.isRetry : WorkResult → Bool
  | .retry _ => true
  | _ => false

/-- True for terminal success. -/
def WorkResult.isOk : WorkResult → Bool
  | .ok => true
  | _ => false

/-- fmt.Errorf wrapping of a job outcome's error, as handleUndo does for the
accept step: wrapping with %w preserves the river.JobCancel classification
in the chain. -/
def WorkResult.wrapMsg (m : String) : WorkResult → WorkResult
  | .ok => .ok
  | .cancel e => .cancel (.wrap m e)
  | .retry e => .retry (.wrap m e)

/-- Service.GetActivityByID (service.go lines 163-184): point lookup by
(user, activity-id); pgx.ErrNoRows maps to ErrActivityNotFound. -/
def getActivityByID (queryFails : Bool) (db : DB) (userRecordID : Int)
    (id : String) : Except GoErr ActivityRecord :=
  if queryFails then .error (.wrap "failed to get activity by ID" .dbQuery)
  else
    match db.activities.find? (fun a => a.userID == userRecordID && a.id == id) with
    | none => .error .activityNotFound
    | some ar => .ok ar

/-- Outcomes of the identity, database and network calls made during one
inbox-worker job. -/
structure WorkerEnv where
  getActivityQueryFails : Bool
  getUserResult : Except GoErr User
  getActorResult : Except GoErr ActorDoc
  createFollowerFails : Bool
  deleteFollowerFails : Bool
  signingFails : Bool
  postResult : Option Nat
deriving Repr

/-- HandleInboxWorker.acceptActivity (activitypub.go lines 155-208): load
the user (ErrUserNotFound cancels, other failures retry), fetch the remote
actor (failure retries), require a published inbox (absence cancels), sign
and POST the Accept; a 2xx response succeeds, a 5xx response is a plain
retryable error, any other non-2xx response cancels the job. -/
def acceptActivity (env : WorkerEnv) (activityID : String) : WorkResult :=
  match env.getUserResult with
  | .error e =>
    let e2 := GoErr.wrap "failed to get user" e
    if goErrIs e2 .userNotFound then .cancel e2 else .retry e2
  | .ok _user =>
    match env.getActorResult with
    | .error e => .retry (.wrap "error getting actor" e)
    | .ok actor =>
      if actor.inbox = "" then .cancel (.actorHasNoInbox actor.id)
      else if env.signingFails then .retry .signingError
      else
        match env.postResult with
        | none => .retry (.wrap "error posting accept" .networkError)
        | some status =>
          if 200 ≤ status ∧ status < 300 then .ok
          else if 500 ≤ status then .retry (.httpStatus status)
          else .cancel (.httpStatus status)

/-- The observable outcome of one inbox-worker job: the job result plus the
follower rows inserted and the (user, actor) pairs deleted. -/
structure InboxOutcome where
  result : WorkResult
  created : List FollowerRecord
  deleted : List (Int × String)
deriving Repr

/-- HandleInboxWorker.handleFollow together with createFollower
(activitypub.go lines 96-108 and 142-153): cancel unless the stored record's
type is Follow, insert the follower row (on the pool, outside any
transaction), then send the Accept; the inserted row remains even when the
accept step fails. -/
def handleFollowW (env : WorkerEnv) (userRecordID : Int) (ar : ActivityRecord)
    (ao : Activity Json) : InboxOutcome :=
  if ar.type ≠ followActivityType then
    { result := .cancel (.notAFollow ar.type), created := [], deleted := [] }
  else if env.createFollowerFails then
    { result := .retry (.wrap "failed to create follower" .dbInsertFollower),
      created := [], deleted := [] }
  else
    let f : FollowerRecord :=
      { userID := userRecordID, actorID := ao.actor, activityID := ar.id }
    { result := acceptActivity env ar.id, created := [f], deleted := [] }

/-- HandleInboxWorker.handleUndo (activitypub.go lines 110-140): re-parse
the wrapped object through the generic envelope (json.Marshal of a decoded
value cannot fail; a re-unmarshal failure cancels), cancel when the outer
actor differs from the wrapped actor or the wrapped activity is not a
Follow, then delete the follower and send the Accept for the undo. -/
def handleUndoW (env : WorkerEnv) (userRecordID : Int) (ar : ActivityRecord)
    (ao : Activity Json) : InboxOutcome :=
  match unmarshalActivityAny ao.object with
  | .error e =>
    { result := .cancel (.wrap "failed to unmarshal object" e),
      created := [], deleted := [] }
  | .ok undoneActivity =>
    if ao.actor ≠ undoneActivity.actor then
      { result := .cancel (.actorMismatch ao.actor undoneActivity.actor),
        created := [], deleted := [] }
    else if undoneActivity.type ≠ followActivityType then
      { result := .cancel (.notAFollow undoneActivity.type),
        created := [], deleted := [] }
    else if env.deleteFollowerFails then
      { result := .retry (.wrap "failed to delete follower" .dbDeleteFollower),
        created := [], deleted := [] }
    else
      { result := (acceptActivity env ar.id).wrapMsg "failed to accept undo",
        created := [], deleted := [(userRecordID, undoneActivity.actor)] }

/-- HandleInboxWorker.Work (activitypub.go lines 70-94): load the stored
activity (absence cancels, other lookup failures retry), unmarshal it as a
generic envelope (failure cancels), then dispatch on the parsed type; any
type other than Follow or Undo succeeds with no effect. -/
def handleInboxWork (env : WorkerEnv) (db : DB) (userRecordID : Int)
    (activityID : String) : InboxOutcome :=
  match getActivityByID env.getActivityQueryFails db userRecordID activityID with
  | .error e =>
    let e2 := GoErr.wrap "failed to get activity" e
    if goErrIs e2 .activityNotFound then
      { result := .cancel e2, created := [], deleted := [] }
    else
      { result := .retry e2, created := [], deleted := [] }
  | .ok ar =>
    match unmarshalActivityAny ar.data with
    | .error e =>
      { result := .cancel (.wrap "failed to unmarshal activity data" e),
        created := [], deleted := [] }
    | .ok ao =>
      if ao.type = followActivityType then handleFollowW env userRecordID ar ao
      else if ao.type = undoActivityType then handleUndoW env userRecordID ar ao
      else { result := .ok, created := [], deleted := [] }

/-- Outcomes of the database and network calls made during one
outbox-delivery job. -/
structure OutboxWorkerEnv where
  getActivityQueryFails : Bool
  getActorResult : Except GoErr ActorDoc
  signingFails : Bool
  postResult : Option Nat
deriving Repr

/-- HandleOutboxWorker.Work (handle_outbox_worker.go lines 40-90): load the
stored activity (absence cancels, other lookup failures retry), unmarshal it
(failure cancels), fetch the follower's actor (failure retries), require an
inbox (absence cancels), sign and POST the re-marshalled activity; a 2xx
response succeeds, and every other response — 4xx and 5xx alike — is
returned as a plain retryable error. -/
def handleOutboxWork (env : OutboxWorkerEnv) (db : DB) (userRecordID : Int)
    (activityID followerID : String) : WorkResult :=
  match getActivityByID env.getActivityQueryFails db userRecordID activityID with
  | .error e =>
    if goErrIs e .activityNotFound then
      .cancel (.msg ("activity not found: " ++ activityID))
    else .retry (.wrap "failed to get activity" e)
  | .ok activity =>
    match unmarshalActivityAny activity.data with
    | .error e => .cancel (.wrap "failed to unmarshal activity data" e)
    | .ok _a =>
      match env.getActorResult with
      | .error e => .retry (.wrap "failed to get actor" e)
      | .ok actor =>
        if actor.inbox = "" then .cancel (.msg ("follower has no inbox: " ++ actor.id))
        else if env.signingFails then .retry .signingError
        else
          match env.postResult with
          | none => .retry (.wrap "failed to send request" .networkError)
          | some status =>
            if 200 ≤ status ∧ status < 300 then .ok
            else .retry (.httpStatus status)

/-- A no-failure transaction environment. -/
def sampleTxEnv : TxEnv := ⟨false, false, false, false, none, false, false⟩

/-- An empty database. -/
def emptyDB : DB := ⟨[], [], [], []⟩

/-- A remote actor URL used in concrete runs. -/
def aliceID : String := "https://remote.example/users/alice"

/-- The remote actor's document, with a published inbox. -/
def aliceDoc : ActorDoc := ⟨aliceID, "https://remote.example/users/alice/inbox"⟩

/-- The local user of the concrete runs. -/
def jclemUser : User := ⟨1, "jclem"⟩

/-- An inbox-worker environment in which every identity, database and
network call succeeds and the remote inbox answers 202. -/
def okWorkerEnv : WorkerEnv :=
  ⟨false, .ok jclemUser, .ok aliceDoc, false, false, false, some 202⟩

/-- Object ID of a concrete Undo activity. -/
def undoID : String := "https://remote.example/users/alice/undo/1"

/-- Raw body of a concrete Undo(Follow) activity. -/
def undoBody : Json :=
  .obj [("@context", .str ActivityStreamsContext),
        ("type", .str "Undo"),
        ("id", .str undoID),
        ("actor", .str aliceID),
        ("object", .obj [("type", .str "Follow"),
                         ("id", .str "https://remote.example/users/alice/follow/1"),
                         ("actor", .str aliceID),
                         ("object", .str "https://pub.jclem.me/~jclem")])]

/-- The activity row CreateActivity inserts for the concrete Undo. -/
def undoRecord : ActivityRecord :=
  ⟨1, Inbox, ActivityStreamsContext, "Undo", undoID, undoBody⟩

/-- C3 is contradicted by the code: Service.handleInbox enqueues a job only
for type Follow, so an inbox Undo activity is persisted with no error and
zero jobs are enqueued — even though HandleInboxWorker has a handleUndo
branch that only a queued job could reach.  This run evaluates
CreateActivity on a concrete inbox Undo with every database call
succeeding: the call returns the inserted row and the committed job queue
stays empty. -/
theorem handleInbox_undo_enqueues_no_job_c3 :
    (createActivity sampleTxEnv emptyDB 1 Inbox ActivityStreamsContext "Undo"
        undoID undoBody).1 = .ok undoRecord ∧
    (createActivity sampleTxEnv emptyDB 1 Inbox ActivityStreamsContext "Undo"
        undoID undoBody).2.activities = [undoRecord] ∧
    (createActivity sampleTxEnv emptyDB 1 Inbox ActivityStreamsContext "Undo"
        undoID undoBody).2.jobs = [] :=
  ⟨rfl, rfl, rfl⟩

/-- Object ID of a concrete outbox Create activity. -/
def createID : String := "https://pub.jclem.me/~jclem/outbox/u1"

/-- Raw body of a concrete Create(Note) activity. -/
def createBody : Json :=
  .obj [("@context", .arr [.str ActivityStreamsContext]),
        ("type", .str "Create"),
        ("id", .str createID),
        ("actor", .str "https://pub.jclem.me/~jclem"),
        ("object", .obj [("type", .str "Note"),
                         ("id", .str "https://pub.jclem.me/~jclem/notes/u2"),
                         ("attributedTo", .str "https://pub.jclem.me/~jclem"),
                         ("content", .str "hello"),
                         ("published", .str "Mon, 01 Jan 2024 00:00:00 GMT"),
                         ("to", .arr [.str (ActivityStreamsContext ++ "#Public")]),
                         ("cc", .arr [.str "https://pub.jclem.me/~jclem/followers"])]),
        ("published", .str "Mon, 01 Jan 2024 00:00:00 GMT"),
        ("to", .arr [.str (ActivityStreamsContext ++ "#Public")]),
        ("cc", .arr [.str "https://pub.jclem.me/~jclem/followers"])]

/-- A database holding the stored Create activity for delivery runs. -/
def dbWithCreate : DB :=
  ⟨[⟨1, Outbox, ActivityStreamsContext, "Create", createID, createBody⟩], [], [], []⟩

/-- An outbox-delivery environment in which the remote inbox answers 410. -/
def outboxEnv410 : OutboxWorkerEnv := ⟨false, .ok aliceDoc, false, some 410⟩

/-- C4 as stated is false on the code: HandleOutboxWorker.Work returns a
plain retryable error for every non-2xx response, including 4xx.  On a
concrete delivery whose remote inbox answers 410 the handler returns a
retryable error, not a cancel-class one. -/
theorem handleOutboxWork_410_retryable_c4_counterexample :
    (handleOutboxWork outboxEnv410 dbWithCreate 1 createID aliceID).isRetry = true ∧
    (handleOutboxWork outboxEnv410 dbWithCreate 1 createID aliceID).isCancel = false :=
  ⟨rfl, rfl⟩

/-- C4 amended: a missing activity or an actor with no inbox cancels the
job permanently; a 2xx response succeeds; every non-2xx response — 5xx and
4xx alike — yields a plain retryable error; cancel-class and retryable
outcomes are distinct values. -/
theorem handleOutboxWork_classification_c4
    (env : OutboxWorkerEnv) (db : DB) (u : Int) (aid fid : String)
    (hq : env.getActivityQueryFails = false) :
    (db.activities.find? (fun a => a.userID == u && a.id == aid) = none →
       (handleOutboxWork env db u aid fid).isCancel = true) ∧
    (∀ ar actor,
       db.activities.find? (fun a => a.userID == u && a.id == aid) = some ar →
       (∃ ao, unmarshalActivityAny ar.data = .ok ao) →
       env.getActorResult = .ok actor → actor.inbox = "" →
       (handleOutboxWork env db u aid fid).isCancel = true) ∧
    (∀ ar actor s,
       db.activities.find? (fun a => a.userID == u && a.id == aid) = some ar →
       (∃ ao, unmarshalActivityAny ar.data = .ok ao) →
       env.getActorResult = .ok actor → actor.inbox ≠ "" →
       env.signingFails = false → env.postResult = some s →
       ((200 ≤ s ∧ s < 300) → handleOutboxWork env db u aid fid = .ok) ∧
       (¬(200 ≤ s ∧ s < 300) → (handleOutboxWork env db u aid fid).isRetry = true)) ∧
    (∀ e1 e2, WorkResult.cancel e1 ≠ WorkResult.retry e2) := by
  refine ⟨?_, ?_, ?_, ?_⟩
  · intro hnone
    simp [handleOutboxWork, getActivityByID, hq, hnone, goErrIs, WorkResult.isCancel]
  · intro ar actor hfind hex hactor hbox
    obtain ⟨ao, hao⟩ := hex
    simp [handleOutboxWork, getActivityByID, hq, hfind, hao, hactor, hbox,
      WorkResult.isCancel]
  · intro ar actor s hfind hex hactor hbox hsig hpost
    obtain ⟨ao, hao⟩ := hex
    constructor
    · intro h2
      simp [handleOutboxWork, getActivityByID, hq, hfind, hao, hactor, hbox,
        hsig, hpost, h2]
    · intro hn
      simp [handleOutboxWork, getActivityByID, hq, hfind, hao, hactor, hbox,
        hsig, hpost, hn, WorkResult.isRetry]
  · intro e1 e2 h
    cases h

/-- Witness for the amended C4 at the concrete 410 delivery: the stored
Create activity is found, the actor document has an inbox, and the remote
answer 410 is classified retryable. -/
theorem handleOutboxWork_classification_c4_witness :
    (handleOutboxWork outboxEnv410 dbWithCreate 1 createID aliceID).isRetry = true := by
  refine ((handleOutboxWork_classification_c4 outboxEnv410 dbWithCreate 1 createID
      aliceID rfl).2.2.1 ⟨1, Outbox, ActivityStreamsContext, "Create", createID, createBody⟩
      aliceDoc 410 rfl ⟨_, rfl⟩ rfl ?_ rfl rfl).2 ?_
  · intro h
    simp [aliceDoc] at h
  · omega

/-- C7: for every Accept delivery by the inbox worker, once the user and
remote actor are loaded and the actor publishes an inbox, a 2xx response is
terminal success, a 5xx response is a plain retryable error, and every
other non-2xx response cancels the job permanently. -/
theorem acceptActivity_status_classification_c7
    (env : WorkerEnv) (aid : String) (user : User) (actor : ActorDoc) (s : Nat)
    (hu : env.getUserResult = .ok user)
    (ha : env.getActorResult = .ok actor)
    (hi : actor.inbox ≠ "")
    (hsig : env.signingFails = false)
    (hp : env.postResult = some s) :
    ((200 ≤ s ∧ s < 300) → acceptActivity env aid = .ok) ∧
    (500 ≤ s → (acceptActivity env aid).isRetry = true) ∧
    (¬(200 ≤ s ∧ s < 300) → s < 500 → (acceptActivity env aid).isCancel = true) := by
  refine ⟨fun h2 => ?_, fun h5 => ?_, fun hn h4 => ?_⟩
  · simp [acceptActivity, hu, ha, hi, hsig, hp, h2]
  · have hn : ¬(200 ≤ s ∧ s < 300) := by omega
    simp [acceptActivity, hu, ha, hi, hsig, hp, hn, h5, WorkResult.isRetry]
  · have h4n : ¬(500 ≤ s) := by omega
    simp [acceptActivity, hu, ha, hi, hsig, hp, hn, h4n, WorkResult.isCancel]

/-- Witness for C7 at a concrete 503 answer from the remote inbox: the
outcome is retryable. -/
theorem acceptActivity_status_classification_c7_witness :
    (acceptActivity ⟨false, .ok jclemUser, .ok aliceDoc, false, false, false,
        some 503⟩ undoID).isRetry = true := by
  refine (acceptActivity_status_classification_c7
      ⟨false, .ok jclemUser, .ok aliceDoc, false, false, false, some 503⟩
      undoID jclemUser aliceDoc 503 rfl rfl ?_ rfl rfl).2.1 (by omega)
  intro h
  simp [aliceDoc] at h

/-- C5: for every Undo job whose stored activity parses to an Undo envelope
and whose re-parsed wrapped activity has a different actor than the outer
Undo, or is not of type Follow, the job ends cancelled and no follower row
is deleted — and this holds for every identity, database and network
outcome. -/
theorem handleUndo_spoof_rejected_c5
    (env : WorkerEnv) (db : DB) (u : Int) (aid : String)
    {ar : ActivityRecord} {ao fa : Activity Json}
    (hfind : getActivityByID env.getActivityQueryFails db u aid = .ok ar)
    (hao : unmarshalActivityAny ar.data = .ok ao)
    (hundo : ao.type = undoActivityType)
    (hre : unmarshalActivityAny ao.object = .ok fa)
    (hmis : ao.actor ≠ fa.actor ∨ fa.type ≠ followActivityType) :
    (handleInboxWork env db u aid).result.isCancel = true ∧
    (handleInboxWork env db u aid).deleted = [] := by
  have hwork : handleInboxWork env db u aid = handleUndoW env u ar ao := by
    simp [handleInboxWork, hfind, hao, hundo, undoActivityType, followActivityType]
  rw [hwork]
  rcases hmis with h | h
  · constructor <;> simp [handleUndoW, hre, h, WorkResult.isCancel]
  · by_cases hactor : ao.actor = fa.actor
    · constructor <;> simp [handleUndoW, hre, hactor, h, WorkResult.isCancel]
    · constructor <;> simp [handleUndoW, hre, hactor, WorkResult.isCancel]

/-- Object ID of a concrete spoofed Undo activity. -/
def spoofUndoID : String := "https://remote.example/users/eve/undo/9"

/-- Raw body of a concrete spoofed Undo: the outer actor is eve but the
wrapped Follow's actor is alice. -/
def spoofUndoBody : Json :=
  .obj [("@context", .str ActivityStreamsContext),
        ("type", .str "Undo"),
        ("id", .str spoofUndoID),
        ("actor", .str "https://remote.example/users/eve"),
        ("object", .obj [("type", .str "Follow"),
                         ("id", .str "https://remote.example/users/alice/follow/1"),
                         ("actor", .str aliceID),
                         ("object", .str "https://pub.jclem.me/~jclem")])]

/-- A database holding the stored spoofed Undo activity and an existing
follower row for alice. -/
def dbWithSpoofUndo : DB :=
  ⟨[⟨1, Inbox, ActivityStreamsContext, "Undo", spoofUndoID, spoofUndoBody⟩],
   [], [⟨1, aliceID, "https://remote.example/users/alice/follow/1"⟩], []⟩

/-- Witness for C5 at the concrete spoofed Undo: the job is cancelled and
no follower deletion is issued. -/
theorem handleUndo_spoof_rejected_c5_witness :
    (handleInboxWork okWorkerEnv dbWithSpoofUndo 1 spoofUndoID).result.isCancel = true ∧
    (handleInboxWork okWorkerEnv dbWithSpoofUndo 1 spoofUndoID).deleted = [] := by
  refine handleUndo_spoof_rejected_c5 okWorkerEnv dbWithSpoofUndo 1 spoofUndoID
      rfl rfl rfl rfl ?_
  left
  intro h
  simp [aliceID] at h

theorem decodeFieldAux_decContext_ok (name : String) (acc : Option Context)
    (fields : List (String × Json)) :
    ∃ v, decodeFieldAux decContext name acc fields = .ok v := by
  induction fields generalizing acc with
  | nil => exact ⟨acc, rfl⟩
  | cons kv rest ih =>
    obtain ⟨k, v⟩ := kv
    by_cases hk : k = name
    · simpa [decodeFieldAux, hk, decContext] using ih _
    · simpa [decodeFieldAux, hk] using ih _

theorem decodeField_decContext_ok (fields : List (String × Json)) (name : String) :
    ∃ v, decodeField decContext fields name = .ok v :=
  decodeFieldAux_decContext_ok name none fields

theorem unmarshalActivityAny_error_of_actor (fields : List (String × Json))
    (e : GoErr) (he : decodeField decStr fields "actor" = .error e) :
    ∃ e2, unmarshalActivityAny (.obj fields) = .error e2 := by
  obtain ⟨cx, hcx⟩ := decodeField_decContext_ok fields "@context"
  rcases hty : decodeField decStr fields "type" with ety | vty
  · exact ⟨ety, by simp [unmarshalActivityAny, unmarshalActivity, hcx, hty,
      bind, Except.bind]⟩
  rcases hid : decodeField decStr fields "id" with eid | vid
  · exact ⟨eid, by simp [unmarshalActivityAny, unmarshalActivity, hcx, hty, hid,
      bind, Except.bind]⟩
  exact ⟨e, by simp [unmarshalActivityAny, unmarshalActivity, hcx, hty, hid, he,
    bind, Except.bind]⟩

/-- Object ID of a concrete Follow activity. -/
def followStrID : String := "https://remote.example/users/alice/follow/1"

/-- Raw body of a Follow whose actor field is a bare ID string. -/
def followBodyStr : Json :=
  .obj [("@context", .str ActivityStreamsContext),
        ("type", .str "Follow"),
        ("id", .str followStrID),
        ("actor", .str aliceID),
        ("object", .str "https://pub.jclem.me/~jclem")]

/-- Raw body of the same Follow, with the actor as an embedded object
carrying an id field. -/
def followBodyObj : Json :=
  .obj [("@context", .str ActivityStreamsContext),
        ("type", .str "Follow"),
        ("id", .str followStrID),
        ("actor", .obj [("id", .str aliceID)]),
        ("object", .str "https://pub.jclem.me/~jclem")]

/-- A database holding the string-actor Follow. -/
def dbFollowStr : DB :=
  ⟨[⟨1, Inbox, ActivityStreamsContext, "Follow", followStrID, followBodyStr⟩],
   [], [], []⟩

/-- A database holding the object-actor Follow. -/
def dbFollowObj : DB :=
  ⟨[⟨1, Inbox, ActivityStreamsContext, "Follow", followStrID, followBodyObj⟩],
   [], [], []⟩

/-- C6 as stated is false on the code: the worker unmarshals the stored
body into Activity[any], whose actor field is a plain Go string, so a
Follow with an actor of the form an object carrying an id does not produce
the same follower record as the bare-string form — its json.Unmarshal fails
and the job is cancelled with no follower row at all. -/
theorem work_actor_object_shape_c6_counterexample :
    (handleInboxWork okWorkerEnv dbFollowStr 1 followStrID).created =
      [⟨1, aliceID, followStrID⟩] ∧
    (handleInboxWork okWorkerEnv dbFollowStr 1 followStrID).result = .ok ∧
    (handleInboxWork okWorkerEnv dbFollowObj 1 followStrID).created = [] ∧
    (handleInboxWork okWorkerEnv dbFollowObj 1 followStrID).result.isCancel = true :=
  ⟨rfl, rfl, rfl, rfl⟩

/-- C6 amended: the inbox worker accepts only the bare-string actor shape.
When the stored Follow's envelope parses, the follower row records the
actor string; when the envelope fails to parse — which an object-shaped
actor field forces, since the actor decodes into a Go string — the job is
cancelled permanently and no follower row is created. -/
theorem work_actor_shape_c6 (env : WorkerEnv) (db : DB) (u : Int) (aid : String)
    {ar : ActivityRecord}
    (hfind : getActivityByID env.getActivityQueryFails db u aid = .ok ar)
    (hcf : env.createFollowerFails = false) :
    (∀ ao : Activity Json, unmarshalActivityAny ar.data = .ok ao →
       ao.type = followActivityType → ar.type = followActivityType →
       (handleInboxWork env db u aid).created = [⟨u, ao.actor, ar.id⟩]) ∧
    (∀ e, unmarshalActivityAny ar.data = .error e →
       (handleInboxWork env db u aid).result.isCancel = true ∧
       (handleInboxWork env db u aid).created = []) ∧
    (∀ fields e, ar.data = .obj fields →
       decodeField decStr fields "actor" = .error e →
       (handleInboxWork env db u aid).result.isCancel = true ∧
       (handleInboxWork env db u aid).created = []) := by
  refine ⟨?_, ?_, ?_⟩
  · intro ao hao haot hart
    simp [handleInboxWork, hfind, hao, haot, handleFollowW, hart, hcf]
  · intro e he
    constructor <;> simp [handleInboxWork, hfind, he, WorkResult.isCancel]
  · intro fields e hdata he
    obtain ⟨e2, he2⟩ := unmarshalActivityAny_error_of_actor fields e he
    rw [← hdata] at he2
    constructor <;> simp [handleInboxWork, hfind, he2, WorkResult.isCancel]

/-- Witness for the amended C6 at the concrete bare-string Follow: the
follower row records the actor string. -/
theorem work_actor_shape_c6_witness :
    (handleInboxWork okWorkerEnv dbFollowStr 1 followStrID).created =
      [⟨1, aliceID, followStrID⟩] :=
  (work_actor_shape_c6 okWorkerEnv dbFollowStr 1 followStrID rfl rfl).1 _ rfl rfl rfl

theorem decStrElems_map_str (xs : List String) :
    decStrElems (xs.map .str) = .ok xs := by
  induction xs with
  | nil => rfl
  | cons x xs ih => simp [decStrElems, decStrElem, ih, bind, Except.bind]

theorem unmarshalNote_marshalNote (n : Note) :
    unmarshalNote (marshalNote n) = .ok n := by
  obtain ⟨⟨raw⟩, ty, i, att, co, pu, se, toA, ccA⟩ := n
  simp [marshalNote, unmarshalNote, marshalStrList, decodeField, decodeFieldAux,
    decStr, decBool, decStrList, decContext, Context.unmarshalJSON,
    Context.marshalJSON, decStrElems_map_str, bind, Except.bind]

theorem decNote_marshalNote (n : Note) :
    decNote (marshalNote n) = .ok (some n) := by
  have h := unmarshalNote_marshalNote n
  rw [marshalNote] at h ⊢
  simp [decNote, h, bind, Except.bind]

theorem unmarshalActivityNote_marshalActivityNote (a : Activity Note) :
    unmarshalActivityNote (marshalActivityNote a) = .ok a := by
  obtain ⟨⟨raw⟩, ty, i, ac, ob, pu, toA, ccA⟩ := a
  by_cases hac : ac = "" <;> by_cases hpu : pu = "" <;>
    by_cases hto : toA = [] <;> by_cases hcc : ccA = [] <;>
    simp [marshalActivityNote, unmarshalActivityNote, unmarshalActivity,
      marshalStrList, decodeField, decodeFieldAux, decStr, decBool, decStrList,
      decContext, decNote_marshalNote, Context.unmarshalJSON, Context.marshalJSON,
      decStrElems_map_str, hac, hpu, hto, hcc, bind, Except.bind]

/-- An inbound HTTP request as the inbox handler can observe it: the header
list and the request body parsed as JSON (none models an unreadable or
non-JSON body, which io.ReadAll or json.Unmarshal rejects). -/
structure InboundRequest where
  headers : List (String × String)
  body : Option Json
deriving Repr

/-- The observable outcome of the inbox POST handler: the HTTP status
written, whether Service.CreateActivity was invoked, and the resulting
database state. -/
structure InboxHandlerResult where
  status : Nat
  createActivityCalled : Bool
  db : DB
deriving Repr

/-- pubRouter.acceptActivity (pubrouter.go lines 163-194): read the body,
unmarshal it into the activityInput envelope, and call
CreateActivity(inbox, ...) with the caller-claimed data; errors surface as
500 via returnError and success writes 201.  The request headers — and in
particular any Signature header — are never consulted. -/
def acceptActivityHandler (txEnv : TxEnv) (db : DB) (user : User)
    (req : InboundRequest) : InboxHandlerResult :=
  match req.body with
  | none => { status := 500, createActivityCalled := false, db }
  | some b =>
    match unmarshalActivityInput b with
    | .error _ => { status := 500, createActivityCalled := false, db }
    | .ok activity =>
      match createActivity txEnv db user.id Inbox activity.context activity.type
          activity.id b with
      | (.error _, db2) => { status := 500, createActivityCalled := true, db := db2 }
      | (.ok _, db2) => { status := 201, createActivityCalled := true, db := db2 }

/-- A POST to the inbox with no headers at all — in particular no Signature
header — and a parseable Follow body. -/
def unsignedFollowRequest : InboundRequest := ⟨[], some followBodyStr⟩

/-- C2 as stated is false on the code: pubRouter.acceptActivity performs no
HTTP-signature verification at all (no verification code exists in the
repository), so a request with no Signature header reaches CreateActivity,
is persisted, and is answered 201 — instead of being rejected 401/403 with
no state change. -/
theorem acceptActivity_no_verification_c2_counterexample :
    (List.lookup "Signature" unsignedFollowRequest.headers = none) ∧
    (acceptActivityHandler sampleTxEnv emptyDB jclemUser
        unsignedFollowRequest).createActivityCalled = true ∧
    (acceptActivityHandler sampleTxEnv emptyDB jclemUser
        unsignedFollowRequest).status = 201 ∧
    (acceptActivityHandler sampleTxEnv emptyDB jclemUser
        unsignedFollowRequest).db.activities =
      [⟨1, Inbox, ActivityStreamsContext, "Follow", followStrID, followBodyStr⟩] :=
  ⟨rfl, rfl, rfl, rfl⟩

/-- C2 amended: the inbox handler performs no signature verification — its
outcome is independent of the request headers — and whenever the body
parses as an activityInput envelope it invokes CreateActivity with mailbox
inbox on the caller-claimed context, type and id; failures surface as 500,
not as 401/403 auth rejections. -/
theorem acceptActivity_unverified_c2 (txEnv : TxEnv) (db : DB) (user : User)
    (req : InboundRequest) :
    (∀ hs, acceptActivityHandler txEnv db user { req with headers := hs } =
       acceptActivityHandler txEnv db user req) ∧
    (∀ b ai, req.body = some b → unmarshalActivityInput b = .ok ai →
       (acceptActivityHandler txEnv db user req).createActivityCalled = true ∧
       (acceptActivityHandler txEnv db user req).db =
         (createActivity txEnv db user.id Inbox ai.context ai.type ai.id b).2) := by
  constructor
  · intro hs
    rfl
  · intro b ai hb hai
    rcases hc : createActivity txEnv db user.id Inbox ai.context ai.type ai.id b
      with ⟨r, db2⟩
    cases r <;>
      simp [acceptActivityHandler, hb, hai, hc]

/-- Witness for the amended C2 at the concrete unsigned Follow request. -/
theorem acceptActivity_unverified_c2_witness :
    (acceptActivityHandler sampleTxEnv emptyDB jclemUser
        unsignedFollowRequest).createActivityCalled = true ∧
    (acceptActivityHandler sampleTxEnv emptyDB jclemUser
        unsignedFollowRequest).db =
      (createActivity sampleTxEnv emptyDB (1 : Int) Inbox ActivityStreamsContext
        "Follow" followStrID followBodyStr).2 :=
  (acceptActivity_unverified_c2 sampleTxEnv emptyDB jclemUser
    unsignedFollowRequest).2 followBodyStr
    ⟨ActivityStreamsContext, "Follow", followStrID⟩ rfl rfl

/-- The decoded content of a private-key PEM as the signing path inspects
it: pem.Decode may yield no block, x509.ParsePKCS8PrivateKey may fail, the
parsed key may not be RSA, or it is an RSA private key (abstract handle). -/
inductive PrivateKeyPEM where
  | undecodable
  | notPKCS8
  | pkcs8NonRSA
  | pkcs8RSA (key : Nat)
deriving Repr, DecidableEq

/-- A Digest header value, constructed only as the SHA-256 digest of a
request body (the hashing itself is go-fed/httpsig's work, external to this
repository). -/
inductive DigestValue where
  | sha256 (body : List Nat)
deriving Repr, DecidableEq

/-- The Signature header as go-fed/httpsig writes it for a signer built
with preferences [RSA_SHA256], digest algorithm SHA-256 and headers
[(request-target), date, digest]. -/
structure SignatureHeader where
  keyId : String
  algorithm : String
  headers : List String
  signedBy : Nat
deriving Repr, DecidableEq

/-- An outbound HTTP request, restricted to the fields the signing path
sets. -/
structure SignedRequest where
  method : String
  url : String
  contentType : Option String
  accept : Option String
  date : Option String
  digest : Option DigestValue
  signature : Option SignatureHeader
deriving Repr, DecidableEq

/-- signJSONLDRequest (httpsig.go lines 53-83): build the go-fed signer
(which cannot fail for these fixed preferences), decode the PKCS8 PEM —
failing when no block decodes, when parsing fails, or when the key is not
RSA — and have the signer set the Digest header to the body's SHA-256 and
the Signature header with the actor's main-key keyId, algorithm rsa-sha256
and the covered headers. -/
def signJSONLDRequest (username : String) (privateKeyPEM : PrivateKeyPEM)
    (r : SignedRequest) (b : List Nat) : Except GoErr SignedRequest :=
  match privateKeyPEM with
  | .undecodable => .error (.msg "error decoding private key")
  | .notPKCS8 => .error (.wrap "error parsing private key" .pemParseError)
  | .pkcs8NonRSA => .error (.msg "private key is not an RSA key")
  | .pkcs8RSA key =>
      .ok { r with
        digest := some (.sha256 b),
        signature := some { keyId := ActorPublicKeyID username,
                            algorithm := "rsa-sha256",
                            headers := ["(request-target)", "date", "digest"],
                            signedBy := key } }

/-- Outcomes of the identity-service calls made while building a signed
request. -/
structure SigningEnv where
  getUserResult : Except GoErr User
  getPrivateKeyResult : Except GoErr PrivateKeyPEM
deriving Repr

/-- newSignedActivityRequest (httpsig.go lines 19-51): build the request,
set Content-Type, Accept and Date, load the user and the private key, and
sign. -/
def newSignedActivityRequest (env : SigningEnv) (method url : String)
    (now : String) (body : List Nat) : Except GoErr SignedRequest :=
  let r : SignedRequest :=
    { method, url, contentType := some ContentType, accept := some ContentType,
      date := some now, digest := none, signature := none }
  match env.getUserResult with
  | .error e => .error (.wrap "error getting user" e)
  | .ok user =>
    match env.getPrivateKeyResult with
    | .error e => .error (.wrap "error getting private key" e)
    | .ok pk =>
      match signJSONLDRequest user.username pk r body with
      | .error e => .error (.wrap "error signing request" e)
      | .ok r2 => .ok r2

/-- C8: every outbound signed request for an identity with body B carries
Content-Type, Accept, Date and a Digest equal to the SHA-256 of B, plus a
Signature header covering (request-target), date and digest with algorithm
RSA-SHA256 whose keyId is the actor's ID concatenated with "#main-key";
signing fails with an error when the private-key PEM cannot be decoded or
is not an RSA key. -/
theorem signedRequest_headers_c8 (env : SigningEnv) (user : User)
    (method url now : String) (body : List Nat)
    (hu : env.getUserResult = .ok user) :
    (∀ key, env.getPrivateKeyResult = .ok (.pkcs8RSA key) →
       newSignedActivityRequest env method url now body =
         .ok { method, url, contentType := some ContentType,
               accept := some ContentType, date := some now,
               digest := some (.sha256 body),
               signature := some { keyId := ActorID user.username ++ "#main-key",
                                   algorithm := "rsa-sha256",
                                   headers := ["(request-target)", "date", "digest"],
                                   signedBy := key } }) ∧
    (∀ pem, env.getPrivateKeyResult = .ok pem → (∀ k, pem ≠ .pkcs8RSA k) →
       ∃ e, newSignedActivityRequest env method url now body = .error e) := by
  constructor
  · intro key hk
    simp [newSignedActivityRequest, hu, hk, signJSONLDRequest, ActorPublicKeyID]
  · intro pem hk hnot
    cases pem with
    | undecodable =>
      exact ⟨.wrap "error signing request" (.msg "error decoding private key"),
        by simp [newSignedActivityRequest, hu, hk, signJSONLDRequest]⟩
    | notPKCS8 =>
      exact ⟨.wrap "error signing request" (.wrap "error parsing private key" .pemParseError),
        by simp [newSignedActivityRequest, hu, hk, signJSONLDRequest]⟩
    | pkcs8NonRSA =>
      exact ⟨.wrap "error signing request" (.msg "private key is not an RSA key"),
        by simp [newSignedActivityRequest, hu, hk, signJSONLDRequest]⟩
    | pkcs8RSA k => exact absurd rfl (hnot k)

/-- Witness for C8: a concrete signed request with an RSA key carries the
specified headers. -/
theorem signedRequest_headers_c8_witness :
    newSignedActivityRequest ⟨.ok jclemUser, .ok (.pkcs8RSA 7)⟩ "POST"
        "https://remote.example/users/alice/inbox" "Mon, 01 Jan 2024 00:00:00 GMT"
        [104, 105] =
      .ok { method := "POST", url := "https://remote.example/users/alice/inbox",
            contentType := some ContentType, accept := some ContentType,
            date := some "Mon, 01 Jan 2024 00:00:00 GMT",
            digest := some (.sha256 [104, 105]),
            signature := some { keyId := ActorID "jclem" ++ "#main-key",
                                algorithm := "rsa-sha256",
                                headers := ["(request-target)", "date", "digest"],
                                signedBy := 7 } } :=
  (signedRequest_headers_c8 ⟨.ok jclemUser, .ok (.pkcs8RSA 7)⟩ jclemUser "POST"
    "https://remote.example/users/alice/inbox" "Mon, 01 Jan 2024 00:00:00 GMT"
    [104, 105] rfl).1 7 rfl

/-- The actor fields the outbox handler uses, as ActorFromUser computes
them for a local user (ActorFromUser returns a nil error for every user). -/
structure LocalActor where
  id : String
  followers : String
deriving Repr, DecidableEq

/-- ActorFromUser (types.go lines 284-332), restricted to the fields the
outbox handler reads. -/
def actorFromUser (user : User) : LocalActor :=
  { id := ActorID user.username, followers := ActorFollowers user.username }

/-- The observable outcome of the outbox POST handler: a response together
with the final database state, or a run-time panic of a Contains call on
uncomparable values. -/
inductive OutboxHandlerResult where
  | response (status : Nat) (db : DB)
  | panicked
deriving Repr

/-- The note as the outbox handler rebuilds it before persisting
(pubrouter.go lines 113-119): server-generated id, the authenticated
actor's attributedTo, the server clock's published, the public to address
and the actor's followers cc; only content and sensitive survive from the
client body. -/
def serverNote (user : User) (noteUUID now : String) (note0 : Note) : Note :=
  { context := ⟨[.str ActivityStreamsContext, MastodonContext]⟩,
    type := "Note",
    id := ActorID user.username ++ "/notes/" ++ noteUUID,
    attributedTo := ActorID user.username,
    content := note0.content,
    published := now,
    sensitive := note0.sensitive,
    toAddrs := [ActivityStreamsContext ++ "#Public"],
    ccAddrs := [ActorFollowers user.username] }

/-- The wrapping Create activity the outbox handler builds
(pubrouter.go lines 121-130). -/
def serverActivity (user : User) (noteUUID activityUUID now : String)
    (note0 : Note) : Activity Note :=
  { context := ⟨[.str ActivityStreamsContext]⟩,
    type := "Create",
    id := ActorID user.username ++ "/outbox/" ++ activityUUID,
    actor := ActorID user.username,
    object := serverNote user noteUUID now note0,
    published := now,
    toAddrs := [ActivityStreamsContext ++ "#Public"],
    ccAddrs := [ActorFollowers user.username] }

/-- pubRouter.createActivity (pubrouter.go lines 77-161): load the public
key, build the local actor, decode the body as a Note, reject non-Note
types and contexts without the ActivityStreams context with 422, then
overwrite the note's context, id, attributedTo, type, published, to and cc
with server-chosen values, wrap it in a Create activity with a fresh outbox
id, and persist through CreateActivity(outbox, ...). -/
def createActivityHandler (getPublicKeyFails : Bool) (txEnv : TxEnv) (db : DB)
    (user : User) (body : Option Json) (noteUUID activityUUID now : String) :
    OutboxHandlerResult :=
  if getPublicKeyFails then .response 500 db
  else
    let actor := actorFromUser user
    match body with
    | none => .response 500 db
    | some b =>
      match unmarshalNote b with
      | .error _ => .response 500 db
      | .ok note0 =>
        if note0.type ≠ "Note" then .response 422 db
        else
          match note0.context.contains (.str ActivityStreamsContext) with
          | none => .panicked
          | some false => .response 422 db
          | some true =>
            let activity := serverActivity user noteUUID activityUUID now note0
            match createActivity txEnv db user.id Outbox ActivityStreamsContext
                activity.type activity.id (marshalActivityNote activity) with
            | (.error _, db2) => .response 500 db2
            | (.ok _, db2) => .response 201 db2

theorem createActivity_ok_split (env : TxEnv) (db : DB) (u : Int)
    (mb cx ty aid : String) (data : Json) (ar : ActivityRecord) (db2 : DB)
    (h : createActivity env db u mb cx ty aid data = (.ok ar, db2)) :
    ∃ w, createActivityTx env.insertActivityFails env.insertNoteFails
        env.listFollowersFails env.insertJobFailsAt db u mb cx ty aid data
      = .ok (ar, w) ∧ db2 = applyWrites db w := by
  by_cases hb : env.beginTxFails = true
  · simp [createActivity, hb, Prod.ext_iff] at h
  · rcases hr : createActivityTx env.insertActivityFails env.insertNoteFails
        env.listFollowersFails env.insertJobFailsAt db u mb cx ty aid data
      with e0 | ⟨ar0, w0⟩
    · simp [createActivity, hb, hr, endTransaction, Prod.ext_iff] at h
    · by_cases hc : env.commitFails = true
      · simp [createActivity, hb, hr, endTransaction, hc, Prod.ext_iff] at h
      · simp [createActivity, hb, hr, endTransaction, hc, Prod.ext_iff] at h
        obtain ⟨h1, h2⟩ := h
        exact ⟨w0, by rw [← h1], h2.symm⟩

theorem handleOutbox_ok_shape (inf lff : Bool) (jf : Option Nat) (db : DB)
    (u : Int) (ar : ActivityRecord) (n : Option NoteRecord) (jobs : List Job)
    (h : handleOutbox inf lff jf db u ar = .ok (n, jobs)) :
    ∃ ao, unmarshalActivityNote ar.data = .ok ao ∧
      n = some { userID := u, activityID := ao.id, objectID := ao.object.id,
                 content := ao.object.content, published := ao.object.published,
                 toAddrs := ao.object.toAddrs, ccAddrs := ao.object.ccAddrs } := by
  by_cases hty : ar.type = "Create"
  · rcases hao : unmarshalActivityNote ar.data with e | ao
    · simp [handleOutbox, hty, hao] at h
    · refine ⟨ao, rfl, ?_⟩
      by_cases hot : ao.object.type = "Note"
      · rcases hjobs : insertOutboxJobs jf u ao.id 0
            ((listFollowersQuery db u).map (·.actorID)) with e2 | js
        · simp [handleOutbox, hty, hao, hot, hjobs] at h
          cases inf <;> cases lff <;> simp_all
        · simp [handleOutbox, hty, hao, hot, hjobs] at h
          cases inf <;> cases lff <;> simp_all
      · simp [handleOutbox, hty, hao, hot] at h
  · simp [handleOutbox, hty] at h

theorem createActivityTx_ok_outbox (iaf inf lff : Bool) (jf : Option Nat)
    (db : DB) (u : Int) (cx ty aid : String) (data : Json)
    (ar : ActivityRecord) (w : TxWrites)
    (h : createActivityTx iaf inf lff jf db u Outbox cx ty aid data = .ok (ar, w)) :
    ar = { userID := u, mailbox := Outbox, context := cx, type := ty,
           id := aid, data := data } ∧
    w.activity = ar ∧
    ∃ n jobs, handleOutbox inf lff jf db u ar = .ok (n, jobs) ∧
      w.note = n ∧ w.jobs = jobs := by
  have hne : ¬(Outbox = Inbox) := by simp [Outbox, Inbox]
  by_cases hi : iaf = true
  · simp [createActivityTx, insertActivityRecord, hi] at h
  · rcases ho : handleOutbox inf lff jf db u
        { userID := u, mailbox := Outbox, context := cx, type := ty,
          id := aid, data := data } with e | ⟨n, jobs⟩
    · simp [createActivityTx, insertActivityRecord, hi, hne, ho] at h
    · simp [createActivityTx, insertActivityRecord, hi, hne, ho] at h
      obtain ⟨h1, h2⟩ := h
      subst h1
      exact ⟨rfl, by rw [← h2], n, jobs, ho, by rw [← h2], by rw [← h2]⟩

/-- C10: for every request the outbox handler answers 201, the persisted
note row and the wrapping Create activity carry server-generated ids under
the authenticated actor's URL, attributedTo and actor equal to that actor's
ID, to equal to exactly the single public address, cc equal to exactly the
actor's followers collection URL and published equal to the server clock —
whatever id, attributedTo, published, to or cc the client supplied; only
the client's content and sensitive flag survive. -/
theorem createActivityHandler_server_fields_c10
    (gpk : Bool) (txEnv : TxEnv) (db : DB) (user : User) (b : Json)
    (noteUUID activityUUID now : String) (db2 : DB)
    (h201 : createActivityHandler gpk txEnv db user (some b) noteUUID
        activityUUID now = .response 201 db2) :
    ∃ note0, unmarshalNote b = .ok note0 ∧
      db2.notes = db.notes ++
        [{ userID := user.id,
           activityID := ActorID user.username ++ "/outbox/" ++ activityUUID,
           objectID := ActorID user.username ++ "/notes/" ++ noteUUID,
           content := note0.content,
           published := now,
           toAddrs := [ActivityStreamsContext ++ "#Public"],
           ccAddrs := [ActorFollowers user.username] }] ∧
      ∃ ar, db2.activities = db.activities ++ [ar] ∧
        ar.userID = user.id ∧ ar.mailbox = Outbox ∧ ar.type = "Create" ∧
        ar.id = ActorID user.username ++ "/outbox/" ++ activityUUID ∧
        unmarshalActivityNote ar.data = .ok
          { context := ⟨[.str ActivityStreamsContext]⟩,
            type := "Create",
            id := ActorID user.username ++ "/outbox/" ++ activityUUID,
            actor := ActorID user.username,
            object :=
              { context := ⟨[.str ActivityStreamsContext, MastodonContext]⟩,
                type := "Note",
                id := ActorID user.username ++ "/notes/" ++ noteUUID,
                attributedTo := ActorID user.username,
                content := note0.content,
                published := now,
                sensitive := note0.sensitive,
                toAddrs := [ActivityStreamsContext ++ "#Public"],
                ccAddrs := [ActorFollowers user.username] },
            published := now,
            toAddrs := [ActivityStreamsContext ++ "#Public"],
            ccAddrs := [ActorFollowers user.username] } := by
  by_cases hg : gpk = true
  · simp [createActivityHandler, hg] at h201
  rcases hn : unmarshalNote b with e | note0
  · simp [createActivityHandler, hg, hn] at h201
  by_cases hnt : note0.type = "Note"
  case neg => simp [createActivityHandler, hg, hn, hnt] at h201
  rcases hctn : note0.context.contains (.str ActivityStreamsContext) with _ | bv
  · simp [createActivityHandler, hg, hn, hnt, hctn] at h201
  cases bv
  · simp [createActivityHandler, hg, hn, hnt, hctn] at h201
  rcases hca : createActivity txEnv db user.id Outbox ActivityStreamsContext
      (serverActivity user noteUUID activityUUID now note0).type
      (serverActivity user noteUUID activityUUID now note0).id
      (marshalActivityNote (serverActivity user noteUUID activityUUID now note0))
    with ⟨r, dbx⟩
  cases r with
  | error e2 => simp [createActivityHandler, hg, hn, hnt, hctn, hca] at h201
  | ok ar =>
    simp [createActivityHandler, hg, hn, hnt, hctn, hca] at h201
    obtain ⟨w, hw, hdb⟩ := createActivity_ok_split txEnv db user.id Outbox
      ActivityStreamsContext (serverActivity user noteUUID activityUUID now note0).type
      (serverActivity user noteUUID activityUUID now note0).id
      (marshalActivityNote (serverActivity user noteUUID activityUUID now note0))
      ar dbx hca
    obtain ⟨har, hwact, n, jobs, ho, hwn, hwj⟩ :=
      createActivityTx_ok_outbox txEnv.insertActivityFails txEnv.insertNoteFails
        txEnv.listFollowersFails txEnv.insertJobFailsAt db user.id
        ActivityStreamsContext (serverActivity user noteUUID activityUUID now note0).type
        (serverActivity user noteUUID activityUUID now note0).id
        (marshalActivityNote (serverActivity user noteUUID activityUUID now note0))
        ar w hw
    obtain ⟨ao, hao, hnval⟩ := handleOutbox_ok_shape txEnv.insertNoteFails
      txEnv.listFollowersFails txEnv.insertJobFailsAt db user.id ar n jobs ho
    have hdata : ar.data =
        marshalActivityNote (serverActivity user noteUUID activityUUID now note0) := by
      rw [har]
    have hao2 : ao = serverActivity user noteUUID activityUUID now note0 := by
      rw [hdata, unmarshalActivityNote_marshalActivityNote] at hao
      exact (Except.ok.injEq _ _).mp hao.symm
    subst hao2
    subst h201
    exact ⟨note0, rfl,
      by rw [hdb, applyWrites]; simp only [hwn, hnval]; rfl,
      ar,
      by rw [hdb, applyWrites]; simp [hwact],
      by rw [har]; try rfl,
      by rw [har]; try rfl,
      by rw [har]; try rfl,
      by rw [har]; try rfl,
      by rw [hdata, unmarshalActivityNote_marshalActivityNote]; try rfl⟩

/-- A client note body carrying its own id, attributedTo, published, to
and cc, all of which the handler must discard. -/
def clientNoteBody : Json :=
  .obj [("@context", .str ActivityStreamsContext),
        ("type", .str "Note"),
        ("id", .str "https://evil.example/fake-id"),
        ("attributedTo", .str "https://evil.example/mallory"),
        ("content", .str "hello world"),
        ("published", .str "1999-01-01T00:00:00Z"),
        ("to", .arr [.str "https://evil.example/mallory"]),
        ("cc", .arr [])]

/-- Witness for C10 at a concrete accepted request: the persisted note row
ignores every client-supplied field except the content. -/
theorem createActivityHandler_server_fields_c10_witness :
    ∃ db2, createActivityHandler false sampleTxEnv emptyDB jclemUser
        (some clientNoteBody) "u2" "u1" "Mon, 01 Jan 2024 00:00:00 GMT" =
        .response 201 db2 ∧
      db2.notes = [{ userID := 1,
                     activityID := ActorID "jclem" ++ "/outbox/" ++ "u1",
                     objectID := ActorID "jclem" ++ "/notes/" ++ "u2",
                     content := "hello world",
                     published := "Mon, 01 Jan 2024 00:00:00 GMT",
                     toAddrs := [ActivityStreamsContext ++ "#Public"],
                     ccAddrs := [ActorFollowers "jclem"] }] := by
  obtain ⟨note0, hn, hnotes, _⟩ := createActivityHandler_server_fields_c10 false
    sampleTxEnv emptyDB jclemUser clientNoteBody "u2" "u1"
    "Mon, 01 Jan 2024 00:00:00 GMT" _ rfl
  refine ⟨_, rfl, ?_⟩
  have hN : unmarshalNote clientNoteBody = Except.ok
      { context := ⟨[.str ActivityStreamsContext]⟩, type := "Note",
        id := "https://evil.example/fake-id",
        attributedTo := "https://evil.example/mallory",
        content := "hello world", published := "1999-01-01T00:00:00Z",
        sensitive := false, toAddrs := ["https://evil.example/mallory"],
        ccAddrs := [] } := rfl
  rw [hN] at hn
  injection hn with h
  subst h
  rw [hnotes]
  rfl

/-- A mixed string/object context: the ActivityStreams IRI plus the
Mastodon extension object. -/
def mixedContext : Json := .arr [.str ActivityStreamsContext, MastodonContext]

/-- C9 as stated is false on the code: Contains is slices.Contains over a
[]any, and Go's == panics when both operands hold the same uncomparable
dynamic type (map[string]any), so membership of an object element of the
context is not testable — the Contains call panics instead of returning
true, both before and after the marshal/unmarshal round trip. -/
theorem context_contains_object_panics_c9_counterexample :
    isContextShape mixedContext = true ∧
    MastodonContext ∈ contextElements mixedContext ∧
    (Context.unmarshalJSON mixedContext).contains MastodonContext = none ∧
    (Context.unmarshalJSON (Context.marshalJSON
        (Context.unmarshalJSON mixedContext))).contains MastodonContext = none :=
  ⟨rfl, by simp [contextElements, mixedContext], rfl, rfl⟩

/-- C9 amended: for every context value of the allowed shapes, every
string element keeps a true Contains test before and after the
marshal/unmarshal round trip; object elements instead make Contains panic
(equally before and after, see the counterexample). -/
theorem context_roundtrip_membership_c9 (j : Json) (s : String)
    (hshape : isContextShape j = true)
    (hmem : Json.str s ∈ contextElements j) :
    (Context.unmarshalJSON j).contains (.str s) = some true ∧
    (Context.unmarshalJSON (Context.marshalJSON
        (Context.unmarshalJSON j))).contains (.str s) = some true := by
  have h1 := goContains_str_of_mem _ s (str_mem_rawValues_of_elem j s hmem)
  exact ⟨h1, by rw [context_roundtrip]; exact h1⟩

/-- Witness for the amended C9 at the concrete mixed context and its
ActivityStreams string element. -/
theorem context_roundtrip_membership_c9_witness :
    (Context.unmarshalJSON mixedContext).contains (.str ActivityStreamsContext) =
      some true ∧
    (Context.unmarshalJSON (Context.marshalJSON
        (Context.unmarshalJSON mixedContext))).contains
      (.str ActivityStreamsContext) = some true :=
  context_roundtrip_membership_c9 mixedContext ActivityStreamsContext rfl
    (by simp [contextElements, mixedContext])

/-- Witness for C1 at a concrete successful Follow ingestion: the committed
state is exactly the transaction's write set applied to the database. -/
theorem createActivity_transaction_atomicity_c1_witness :
    ∃ w : TxWrites,
      createActivityTx false false false none emptyDB 1 Inbox
          ActivityStreamsContext "Follow" followStrID followBodyStr =
        .ok (⟨1, Inbox, ActivityStreamsContext, "Follow", followStrID,
              followBodyStr⟩, w) ∧
      (createActivity sampleTxEnv emptyDB 1 Inbox ActivityStreamsContext
          "Follow" followStrID followBodyStr).2 = applyWrites emptyDB w :=
  (createActivity_transaction_atomicity_c1 sampleTxEnv emptyDB 1 Inbox
    ActivityStreamsContext "Follow" followStrID followBodyStr).2.1
    ⟨1, Inbox, ActivityStreamsContext, "Follow", followStrID, followBodyStr⟩ rfl

end AP
